import Mathlib

/-!
Verification of the wall-game server core (NestJS room lifecycle state machine).

Shallow embedding of the repository's game logic:
* `ScoreCalculatorService` (calculatePoints, getResultType)
* `RoomService` (joinRoom, room creation shape)
* `GameService` (startGame, startRound, submitHeight, endSelectionPeriod,
  calculateResults, endRound, endGame, handleRestartConsent, restartGame,
  checkAllPlayersReady, checkAllRestartConsents)
* `GameGateway` handlers (handleJoinRoom, handlePlayerReady,
  handleSelectHeight, handleDisconnect)

JS `Map`s are modelled as insertion-ordered lists (JS Map iteration order is
insertion order), `Set`s as duplicate-free lists, `setTimeout` handles as
Boolean armed-flags, and the one random draw (the wall hole) as an explicit
parameter of the transition that performs it.
-/

namespace WallGame

/-- The possible room states, from `room-state.interface.ts`. -/
inductive RoomState where
  | lobby
  | waitingReady
  | selection
  | revealing
  | gameOver
  | waitingRestart
  deriving DecidableEq, Repr

/-- A player, from `player.interface.ts`. -/
structure Player where
  id : String
  socketId : String
  name : String
  isReady : Bool
  isHost : Bool
  score : Int
  currentHeight : Option Nat
  isConnected : Bool
  deriving DecidableEq, Repr

/-- A room, from `room.interface.ts`.  The two `NodeJS.Timeout` handles are
modelled as Boolean armed-flags; `createdAt` is dropped (never read by the
game logic). -/
structure Room where
  code : String
  players : List Player
  state : RoomState
  currentRound : Nat
  maxRounds : Nat
  selectionTimer : Bool
  revealTimer : Bool
  selectionDuration : Nat
  revealDuration : Nat
  currentWallHole : Option Nat
  restartConsents : List String
  deriving DecidableEq, Repr

/-- The three scoring constants from `game.config.ts` (`game.scoring`). -/
structure ScoringConfig where
  perfect : Int
  tooLow : Int
  tooHigh : Int
  deriving DecidableEq, Repr

/-- Default scoring values from `game.config.ts`: 20 / -5 / -10. -/
def defaultScoring : ScoringConfig := { perfect := 20, tooLow := -5, tooHigh := -10 }

/-- `defaultHeight` from `game.config.ts` and the local constants in
`GameService.endSelectionPeriod` / `GameService.calculateResults`. -/
def defaultHeight : Nat := 5

/-- `maxPlayersPerRoom` default from `game.config.ts`. -/
def maxPlayersPerRoom : Nat := 10

/-- `ScoreCalculatorService.calculatePoints`. -/
def calculatePoints (cfg : ScoringConfig) (selectedHeight wallHole : Nat) : Int :=
  if selectedHeight = wallHole then cfg.perfect
  else if selectedHeight < wallHole then cfg.tooLow
  else cfg.tooHigh

/-- The result category returned by `ScoreCalculatorService.getResultType`. -/
inductive RoundResultType where
  | perfect
  | tooLow
  | tooHigh
  deriving DecidableEq, Repr

/-- `ScoreCalculatorService.getResultType`. -/
def getResultType (selectedHeight wallHole : Nat) : RoundResultType :=
  if selectedHeight = wallHole then RoundResultType.perfect
  else if selectedHeight < wallHole then RoundResultType.tooLow
  else RoundResultType.tooHigh

/-- A per-round result entry, from `round-result.interface.ts`. -/
structure RoundResult where
  playerId : String
  playerName : String
  selectedHeight : Nat
  wallHole : Nat
  pointsEarned : Int
  totalScore : Int
  result : RoundResultType
  deriving DecidableEq, Repr

/-- A final-score entry, from `player-score.interface.ts`. -/
structure PlayerScore where
  playerId : String
  playerName : String
  score : Int
  rank : Nat
  isWinner : Bool
  deriving DecidableEq, Repr

/-! ### RoomService -/

/-- The fresh player record built inside `RoomService.joinRoom`. -/
def newPlayer (playerId socketId : String) (isHost : Bool) : Player :=
  { id := playerId, socketId := socketId, name := "", isReady := false,
    isHost := isHost, score := 0, currentHeight := none, isConnected := true }

/-- The roster mutation performed by `RoomService.joinRoom` on an existing
room: the first player to join becomes host; `Map.set` replaces in place when
the key exists and appends otherwise. -/
def addPlayer (room : Room) (playerId socketId : String) : Room :=
  let player := newPlayer playerId socketId room.players.isEmpty
  { room with players :=
      if room.players.any (fun p => p.id = playerId) then
        room.players.map (fun p => if p.id = playerId then player else p)
      else
        room.players ++ [player] }

/-- `RoomService.joinRoom`: returns `false` when the room does not exist,
otherwise adds the player and returns `true`.  The room argument is `none`
exactly when `rooms.get(roomCode)` misses. -/
def joinRoom (roomOpt : Option Room) (playerId socketId : String) :
    Bool × Option Room :=
  match roomOpt with
  | none => (false, none)
  | some room => (true, some (addPlayer room playerId socketId))

/-- The room built by `RoomService.createRoom` (fresh lobby, round 0, no
timers, no wall hole, no consents). -/
def initialRoom (code : String) (maxRounds selectionDuration revealDuration : Nat) : Room :=
  { code := code, players := [], state := RoomState.lobby, currentRound := 0,
    maxRounds := maxRounds, selectionTimer := false, revealTimer := false,
    selectionDuration := selectionDuration, revealDuration := revealDuration,
    currentWallHole := none, restartConsents := [] }

/-! ### GameService -/

/-- `GameService.startRound`: clear both timers, reset every player's height
selection and the wall hole, switch to `selection` and arm the selection
timer. -/
def startRound (room : Room) : Room :=
  { room with
    selectionTimer := true,
    revealTimer := false,
    players := room.players.map (fun p => { p with currentHeight := none }),
    currentWallHole := none,
    state := RoomState.selection }

/-- `GameService.startGame`: switch to `selection`, set round 1, and start
the first round. -/
def startGame (room : Room) : Room :=
  startRound { room with state := RoomState.selection, currentRound := 1 }

/-- `GameService.submitHeight`: records the height only while the room is in
the `selection` state and the player exists. -/
def submitHeight (room : Room) (playerId : String) (height : Nat) : Room :=
  if room.state = RoomState.selection then
    let players2 := room.players.map
      (fun p => if p.id = playerId then { p with currentHeight := some height } else p)
    { room with players := players2 }
  else room

/-- The per-player body of `GameService.calculateResults`: score the player's
selection (`currentHeight ?? defaultHeight`) against the wall hole, add the
points to the cumulative score, and build the round-result entry. -/
def roundResultFor (cfg : ScoringConfig) (hole : Nat) (p : Player) :
    Player × RoundResult :=
  let selectedHeight := p.currentHeight.getD defaultHeight
  let pointsEarned := calculatePoints cfg selectedHeight hole
  let p1 := { p with score := p.score + pointsEarned }
  (p1,
   { playerId := p.id, playerName := p.name, selectedHeight := selectedHeight,
     wallHole := hole, pointsEarned := pointsEarned, totalScore := p1.score,
     result := getResultType selectedHeight hole })

/-- `GameService.calculateResults`: returns the empty list when the wall hole
is unset; otherwise updates every roster player's score and collects the
round results (iteration over `room.players.forEach`). -/
def calculateResults (cfg : ScoringConfig) (room : Room) :
    List Player × List RoundResult :=
  match room.currentWallHole with
  | none => (room.players, [])
  | some hole =>
    (room.players.map (fun p => (roundResultFor cfg hole p).1),
     room.players.map (fun p => (roundResultFor cfg hole p).2))

/-- `GameService.endSelectionPeriod`: guarded on the `selection` state; clears
the selection timer, assigns the default height to connected players who made
no selection, draws the wall hole (here the explicit `hole` parameter stands
for `Math.floor(Math.random()*10)+1`), switches to `revealing`, computes the
round results and arms the reveal timer.  Also returns the broadcast result
list. -/
def endSelectionPeriod (cfg : ScoringConfig) (room : Room) (hole : Nat) :
    Room × List RoundResult :=
  if room.state = RoomState.selection then
    let withDefaults := room.players.map
      (fun p => if p.isConnected ∧ p.currentHeight = none then
          { p with currentHeight := some defaultHeight } else p)
    let room1 := { room with selectionTimer := false, players := withDefaults, currentWallHole := some hole, state := RoomState.revealing }
    let scored := calculateResults cfg room1
    ({ room1 with players := scored.1, revealTimer := true }, scored.2)
  else (room, [])

/-- The stable descending insertion used to model
`scores.sort((a, b) => b.score - a.score)` (JS `Array.prototype.sort` is
stable): an element is inserted after every earlier element whose score is at
least as large. -/
def insertDesc (s : PlayerScore) : List PlayerScore → List PlayerScore
  | [] => [s]
  | t :: ts => if s.score ≤ t.score then t :: insertDesc s ts else s :: t :: ts

/-- Stable sort of the score list in descending score order. -/
def sortByScoreDesc : List PlayerScore → List PlayerScore
  | [] => []
  | s :: ss => insertDesc s (sortByScoreDesc ss)

/-- The `scores.forEach((score, index) => ...)` pass of `GameService.endGame`:
rank is the 1-based position, winner flag is score equality with the highest
score. -/
def assignRanks (highestScore : Int) : Nat → List PlayerScore → List PlayerScore
  | _, [] => []
  | i, s :: ss =>
    { s with rank := i + 1, isWinner := s.score == highestScore } ::
      assignRanks highestScore (i + 1) ss

/-- The raw score entry pushed for each roster player in
`GameService.endGame` (rank and winner flag assigned after sorting). -/
def initialScore (p : Player) : PlayerScore :=
  { playerId := p.id, playerName := p.name, score := p.score,
    rank := 0, isWinner := false }

/-- The final-ranking computation of `GameService.endGame`: build the raw
score entries from the roster, sort descending by score, read the highest
score off the sorted head (0 for an empty roster), then assign ranks and
winner flags. -/
def computeFinalScores (players : List Player) : List PlayerScore :=
  let scores := players.map initialScore
  let sorted := sortByScoreDesc scores
  let highestScore : Int := match sorted with
    | [] => 0
    | s :: _ => s.score
  assignRanks highestScore 0 sorted

/-- The descending-score ordering established by the final ranking sort. -/
def scoreGE (a b : PlayerScore) : Prop := b.score ≤ a.score

/-- `GameService.endGame`: switch to `game-over`, clear both timers, and
compute the final scores to broadcast. -/
def endGame (room : Room) : Room × List PlayerScore :=
  let room1 := { room with state := RoomState.gameOver, selectionTimer := false, revealTimer := false }
  (room1, computeFinalScores room1.players)

/-- `GameService.endRound`: guarded on the `revealing` state; clears the
reveal timer and either ends the game (last round) or advances to the next
round. -/
def endRound (room : Room) : Room :=
  if room.state = RoomState.revealing then
    let room1 := { room with revealTimer := false }
    if room1.maxRounds ≤ room1.currentRound then (endGame room1).1
    else startRound { room1 with currentRound := room1.currentRound + 1 }
  else room

/-- `GameService.checkAllPlayersReady`: non-empty roster and every connected
player ready. -/
def checkAllPlayersReady (room : Room) : Bool :=
  !room.players.isEmpty &&
    room.players.all (fun p => !p.isConnected || p.isReady)

/-- `GameService.checkAllRestartConsents`: non-empty roster and every
connected player's id in the consent set. -/
def checkAllRestartConsents (room : Room) : Bool :=
  !room.players.isEmpty &&
    room.players.all (fun p => !p.isConnected || room.restartConsents.contains p.id)

/-- `room.restartConsents.add(playerId)`: a JS `Set` add — append when
absent, no-op when present. -/
def insertConsent (playerId : String) (consents : List String) : List String :=
  if consents.contains playerId then consents else consents ++ [playerId]

/-- `GameService.restartGame`: reset every player's score, height and
readiness, reset the round counter, the wall hole and the consent set, and
return to `waiting-ready`. -/
def restartGame (room : Room) : Room :=
  { room with
    players := room.players.map
      (fun p => { p with score := 0, currentHeight := none, isReady := false }),
    currentRound := 0,
    currentWallHole := none,
    restartConsents := [],
    state := RoomState.waitingReady }

/-- `GameService.handleRestartConsent`: guarded on `game-over`; records the
consent and restarts the game when every connected player has consented. -/
def handleRestartConsent (room : Room) (playerId : String) : Room :=
  if room.state = RoomState.gameOver then
    let room1 := { room with
      restartConsents := insertConsent playerId room.restartConsents }
    if checkAllRestartConsents room1 then restartGame room1 else room1
  else room

/-! ### GameGateway -/

/-- Replies emitted to the acting connection by `GameGateway.handleJoinRoom`. -/
inductive JoinReply where
  | roomError (msg : String)
  | roomJoined (roomCode playerId : String)
  deriving DecidableEq, Repr

/-- `GameGateway.handleJoinRoom`: error when the room does not exist, else
join through `RoomService.joinRoom` and confirm.  There is no capacity check
in the handler. -/
def handleJoinRoom (roomOpt : Option Room) (playerId socketId : String) :
    Option Room × JoinReply :=
  match roomOpt with
  | none => (none, JoinReply.roomError "La sala no existe")
  | some room =>
    let result := joinRoom (some room) playerId socketId
    if result.1 then (result.2, JoinReply.roomJoined room.code playerId)
    else (some room, JoinReply.roomError "No se pudo unir a la sala")

/-- The gateway's empty-name test `!player.name || player.name.trim() === ''`:
true iff the name consists solely of whitespace (an empty name included). -/
def isBlank (s : String) : Bool := s.toList.all Char.isWhitespace

/-- Outcome reported by `GameGateway.handlePlayerReady`. -/
inductive ReadyOutcome where
  | notFound
  | noName
  | marked
  | started
  deriving DecidableEq, Repr

/-- `GameGateway.handlePlayerReady`: requires the player to exist and to have
a non-empty name; marks the player ready, moves a `lobby` room to
`waiting-ready`, and starts the game when every connected player is ready.
Note: the handler has no phase guard. -/
def handlePlayerReady (room : Room) (playerId : String) : Room × ReadyOutcome :=
  match room.players.find? (fun p => p.id = playerId) with
  | none => (room, ReadyOutcome.notFound)
  | some player =>
    if isBlank player.name then (room, ReadyOutcome.noName)
    else
      let room1 := { room with
        players := room.players.map
          (fun p => if p.id = playerId then { p with isReady := true } else p),
        state := if room.state = RoomState.lobby then RoomState.waitingReady
                 else room.state }
      if checkAllPlayersReady room1 then (startGame room1, ReadyOutcome.started)
      else (room1, ReadyOutcome.marked)

/-- Replies emitted to the acting connection by
`GameGateway.handleSelectHeight`. -/
inductive SelectReply where
  | roomError (msg : String)
  | heightSelected (height : Nat)
  deriving DecidableEq, Repr

/-- `GameGateway.handleSelectHeight` (after socket/player/room resolution):
rejects with a `room-error` outside the `selection` state, otherwise records
the selection through `GameService.submitHeight` and confirms. -/
def handleSelectHeight (room : Room) (playerId : String) (height : Nat) :
    Room × SelectReply :=
  if room.state = RoomState.selection then
    (submitHeight room playerId height, SelectReply.heightSelected height)
  else
    (room, SelectReply.roomError "No es momento de seleccionar altura")

/-- `GameGateway.handleRestartConsent` (after resolution): guarded on
`game-over`, then delegates to `GameService.handleRestartConsent`. -/
def gatewayRestartConsent (room : Room) (playerId : String) : Room :=
  if room.state = RoomState.gameOver then handleRestartConsent room playerId
  else room

/-- `GameGateway.handleSetPlayerName` (after resolution): rejects a name in
use by another player, otherwise assigns it. -/
def setPlayerName (room : Room) (playerId name : String) : Room :=
  match room.players.find? (fun p => p.id = playerId) with
  | none => room
  | some _ =>
    if room.players.any (fun p => p.name = name ∧ p.id ≠ playerId) then room
    else
      let players2 := room.players.map
        (fun p => if p.id = playerId then { p with name := name } else p)
      { room with players := players2 }

/-- `GameGateway.handleDisconnect` (after resolution): in `lobby` or
`waiting-ready` the player is removed (host reassigned to the first remaining
roster entry when the departed player was host; the room is deleted — `none` —
when the roster empties); in any other state the player is kept and marked
disconnected, and the room is deleted when every roster member is now
disconnected. -/
def handleDisconnect (room : Room) (playerId : String) : Option Room :=
  match room.players.find? (fun p => p.id = playerId) with
  | none => some room
  | some player =>
    if room.state = RoomState.lobby ∨ room.state = RoomState.waitingReady then
      let remaining := room.players.filter (fun p => p.id ≠ playerId)
      let remaining2 :=
        if player.isHost ∧ ¬remaining.isEmpty then
          match remaining with
          | [] => []
          | h :: t => { h with isHost := true } :: t
        else remaining
      if remaining2.isEmpty then none
      else some { room with players := remaining2 }
    else
      let players2 := room.players.map
        (fun p => if p.id = playerId then { p with isConnected := false } else p)
      if players2.all (fun p => !p.isConnected) then none
      else some { room with players := players2 }

/-! ### Per-room event semantics

Every way a room's state can be mutated after creation: the gateway handlers
triggered by inbound client messages, and the two timer callbacks
(`endSelectionPeriod`, `endRound`).  The hole drawn when a selection deadline
fires is the event's parameter. -/

/-- Inbound events of one room. -/
inductive GEvent where
  | join (playerId socketId : String)
  | setName (playerId name : String)
  | ready (playerId : String)
  | selectHeight (playerId : String) (height : Nat)
  | selectionDeadline (hole : Nat)
  | revealDeadline
  | consent (playerId : String)
  | disconnect (playerId : String)
  deriving DecidableEq, Repr

/-- One step of a room under an event; `none` means the room was deleted. -/
def step (cfg : ScoringConfig) (room : Room) : GEvent → Option Room
  | GEvent.join playerId socketId => some (addPlayer room playerId socketId)
  | GEvent.setName playerId name => some (setPlayerName room playerId name)
  | GEvent.ready playerId => some (handlePlayerReady room playerId).1
  | GEvent.selectHeight playerId height =>
      some (handleSelectHeight room playerId height).1
  | GEvent.selectionDeadline hole => some (endSelectionPeriod cfg room hole).1
  | GEvent.revealDeadline => some (endRound room)
  | GEvent.consent playerId => some (gatewayRestartConsent room playerId)
  | GEvent.disconnect playerId => handleDisconnect room playerId

/-- The rooms reachable from a freshly created room under any event trace. -/
inductive Reachable (cfg : ScoringConfig) : Room → Prop where
  | init (code : String) (maxRounds selectionDuration revealDuration : Nat) :
      Reachable cfg (initialRoom code maxRounds selectionDuration revealDuration)
  | next {room room2 : Room} (e : GEvent) :
      Reachable cfg room → step cfg room e = some room2 → Reachable cfg room2

/-- The deadline invariant: an armed timer matches the current state, and the
two timers are never armed simultaneously. -/
def timerInv (room : Room) : Prop :=
  (room.selectionTimer = true → room.state = RoomState.selection) ∧
  (room.revealTimer = true → room.state = RoomState.revealing) ∧
  ¬(room.selectionTimer = true ∧ room.revealTimer = true)

instance (room : Room) : Decidable (timerInv room) := by
  unfold timerInv; infer_instance

/-- The number of armed deadline handles of a room. -/
def armedCount (room : Room) : Nat :=
  (if room.selectionTimer then 1 else 0) + (if room.revealTimer then 1 else 0)

/-- `disarms room room2`: the transition from `room` to `room2` disarmed a
deadline — some handle armed in `room` is no longer armed in `room2`. -/
def disarms (room room2 : Room) : Prop :=
  (room.selectionTimer = true ∧ room2.selectionTimer = false) ∨
    (room.revealTimer = true ∧ room2.revealTimer = false)

/-! ### Concrete sample states used to exercise the definitions -/

/-- A connected, ready, named host with 20 points. -/
def playerAna : Player :=
  { id := "p1", socketId := "s1", name := "Ana", isReady := true, isHost := true,
    score := 20, currentHeight := none, isConnected := true }

/-- A second named player. -/
def playerBo : Player :=
  { id := "p2", socketId := "s2", name := "Bo", isReady := true, isHost := false,
    score := 0, currentHeight := none, isConnected := true }

/-- A single-player room that has finished its last round. -/
def roomGameOver1 : Room :=
  { code := "ABC123", players := [playerAna], state := RoomState.gameOver,
    currentRound := 10, maxRounds := 10, selectionTimer := false,
    revealTimer := false, selectionDuration := 15, revealDuration := 5,
    currentWallHole := none, restartConsents := [] }

/-- A finished two-player room with both players connected and no restart
consent yet. -/
def roomGameOver2 : Room :=
  { roomGameOver1 with players := [playerAna, playerBo] }

/-- A mid-round room: Ana picked height 7, Bo is disconnected with no pick. -/
def roomSelection2 : Room :=
  { code := "ABC123",
    players := [{ playerAna with currentHeight := some 7 },
                { playerBo with isConnected := false }],
    state := RoomState.selection, currentRound := 1, maxRounds := 10,
    selectionTimer := true, revealTimer := false, selectionDuration := 15,
    revealDuration := 5, currentWallHole := none, restartConsents := [] }

/-- A lobby with two named players, Ana hosting. -/
def roomLobby2 : Room :=
  { code := "ABC123",
    players := [{ playerAna with isReady := false, score := 0 },
                { playerBo with isReady := false }],
    state := RoomState.lobby, currentRound := 0, maxRounds := 10,
    selectionTimer := false, revealTimer := false, selectionDuration := 15,
    revealDuration := 5, currentWallHole := none, restartConsents := [] }

/-- A roster holding exactly `maxPlayersPerRoom` players. -/
def fullRoomPlayers : List Player :=
  (List.range maxPlayersPerRoom).map (fun i =>
    { id := "p" ++ toString i, socketId := "s" ++ toString i,
      name := "n" ++ toString i, isReady := false, isHost := decide (i = 0),
      score := 0, currentHeight := none, isConnected := true })

/-- A lobby whose roster already sits at the configured player cap. -/
def roomFull : Room :=
  { code := "FULL01", players := fullRoomPlayers, state := RoomState.lobby,
    currentRound := 0, maxRounds := 10, selectionTimer := false,
    revealTimer := false, selectionDuration := 15, revealDuration := 5,
    currentWallHole := none, restartConsents := [] }

/-! ## Theorems -/

/-- C7: for guesses and targets in 1..10 and scoring constants with
reward > 0 > too-low penalty > too-high penalty, `calculatePoints` returns
the reward iff guess = target (and the reward is the maximum obtainable
value), the too-low penalty iff guess < target, and the too-high penalty iff
guess > target; `getResultType` returns perfect/too-low/too-high in exactly
the same three cases, so score and category always agree. -/
theorem claim_C7 (cfg : ScoringConfig) (g t : Nat)
    (hg : 1 ≤ g ∧ g ≤ 10) (ht : 1 ≤ t ∧ t ≤ 10)
    (hperfect : 0 < cfg.perfect) (hlow : cfg.tooLow < 0)
    (hord : cfg.tooHigh < cfg.tooLow) :
    (calculatePoints cfg g t = cfg.perfect ↔ g = t) ∧
    (calculatePoints cfg g t = cfg.tooLow ↔ g < t) ∧
    (calculatePoints cfg g t = cfg.tooHigh ↔ t < g) ∧
    (∀ g2 t2 : Nat, calculatePoints cfg g2 t2 ≤ cfg.perfect) ∧
    (getResultType g t = RoundResultType.perfect ↔ g = t) ∧
    (getResultType g t = RoundResultType.tooLow ↔ g < t) ∧
    (getResultType g t = RoundResultType.tooHigh ↔ t < g) ∧
    (calculatePoints cfg g t = cfg.perfect ↔
      getResultType g t = RoundResultType.perfect) ∧
    (calculatePoints cfg g t = cfg.tooLow ↔
      getResultType g t = RoundResultType.tooLow) ∧
    (calculatePoints cfg g t = cfg.tooHigh ↔
      getResultType g t = RoundResultType.tooHigh) := by
  have hmax : ∀ g2 t2 : Nat, calculatePoints cfg g2 t2 ≤ cfg.perfect := by
    intro g2 t2
    unfold calculatePoints
    split
    · exact le_refl _
    · split <;> omega
  rcases Nat.lt_trichotomy g t with hlt | heq | hgt
  · have hne : g ≠ t := Nat.ne_of_lt hlt
    refine ⟨?_, ?_, ?_, hmax, ?_, ?_, ?_, ?_, ?_, ?_⟩ <;>
      simp only [calculatePoints, getResultType, if_neg hne, if_pos hlt] <;>
      first
        | omega
        | (simp only [reduceCtorEq] <;> omega)
        | (constructor <;> intro hx <;> omega)
        | (constructor <;> intro hx <;> simp_all <;> omega)
  · subst heq
    refine ⟨?_, ?_, ?_, hmax, ?_, ?_, ?_, ?_, ?_, ?_⟩ <;>
      simp only [calculatePoints, getResultType, if_pos rfl] <;>
      first
        | omega
        | (simp only [reduceCtorEq] <;> omega)
        | (constructor <;> intro hx <;> omega)
        | (constructor <;> intro hx <;> simp_all <;> omega)
  · have hne : g ≠ t := (Nat.ne_of_lt hgt).symm
    have hnlt : ¬ g < t := Nat.lt_asymm hgt
    refine ⟨?_, ?_, ?_, hmax, ?_, ?_, ?_, ?_, ?_, ?_⟩ <;>
      simp only [calculatePoints, getResultType, if_neg hne, if_neg hnlt] <;>
      first
        | omega
        | (simp only [reduceCtorEq] <;> omega)
        | (constructor <;> intro hx <;> omega)
        | (constructor <;> intro hx <;> simp_all <;> omega)

/-- Witness for C7 at guess 3, target 7, default scoring. -/
theorem claim_C7_witness :
    (calculatePoints defaultScoring 3 7 = defaultScoring.perfect ↔ 3 = 7) ∧
    (calculatePoints defaultScoring 3 7 = defaultScoring.tooLow ↔ 3 < 7) ∧
    (calculatePoints defaultScoring 3 7 = defaultScoring.tooHigh ↔ 7 < 3) ∧
    (∀ g2 t2 : Nat, calculatePoints defaultScoring g2 t2 ≤ defaultScoring.perfect) ∧
    (getResultType 3 7 = RoundResultType.perfect ↔ 3 = 7) ∧
    (getResultType 3 7 = RoundResultType.tooLow ↔ 3 < 7) ∧
    (getResultType 3 7 = RoundResultType.tooHigh ↔ 7 < 3) ∧
    (calculatePoints defaultScoring 3 7 = defaultScoring.perfect ↔
      getResultType 3 7 = RoundResultType.perfect) ∧
    (calculatePoints defaultScoring 3 7 = defaultScoring.tooLow ↔
      getResultType 3 7 = RoundResultType.tooLow) ∧
    (calculatePoints defaultScoring 3 7 = defaultScoring.tooHigh ↔
      getResultType 3 7 = RoundResultType.tooHigh) :=
  claim_C7 defaultScoring 3 7 (by decide) (by decide) (by decide) (by decide)
    (by decide)

/-- C8: while the room is not in the `selection` state, a guess submission is
rejected: the gateway replies with a `room-error` to the acting connection
and the room — every player's `currentHeight` included — is unchanged;
`GameService.submitHeight` likewise leaves the room untouched. -/
theorem claim_C8 (room : Room) (playerId : String) (height : Nat)
    (h : room.state ≠ RoomState.selection) :
    handleSelectHeight room playerId height =
      (room, SelectReply.roomError "No es momento de seleccionar altura") ∧
    submitHeight room playerId height = room := by
  constructor
  · unfold handleSelectHeight
    rw [if_neg h]
  · unfold submitHeight
    rw [if_neg h]

/-- Witness for C8: a guess in a finished room bounces with an error. -/
theorem claim_C8_witness :
    handleSelectHeight roomGameOver1 "p1" 3 =
      (roomGameOver1, SelectReply.roomError "No es momento de seleccionar altura") ∧
    submitHeight roomGameOver1 "p1" 3 = roomGameOver1 :=
  claim_C8 roomGameOver1 "p1" 3 (by decide)

/-- C10: `joinRoom` succeeds (returns `true`) on every existing room, with no
condition on the room's phase, appending a player with empty name, not ready,
score 0, no current guess, connected, and host exactly when the roster was
empty before the join. -/
theorem claim_C10 (room : Room) (playerId socketId : String)
    (hfresh : ∀ q ∈ room.players, q.id ≠ playerId) :
    joinRoom (some room) playerId socketId =
      (true, some { room with players :=
        room.players ++ [newPlayer playerId socketId room.players.isEmpty] }) ∧
    (newPlayer playerId socketId room.players.isEmpty).name = "" ∧
    (newPlayer playerId socketId room.players.isEmpty).isReady = false ∧
    (newPlayer playerId socketId room.players.isEmpty).score = 0 ∧
    (newPlayer playerId socketId room.players.isEmpty).currentHeight = none ∧
    (newPlayer playerId socketId room.players.isEmpty).isConnected = true ∧
    ((newPlayer playerId socketId room.players.isEmpty).isHost = true ↔
      room.players = []) := by
  have hany : room.players.any (fun p => p.id = playerId) = false := by
    simp only [List.any_eq_false, decide_eq_true_eq]
    exact hfresh
  refine ⟨?_, rfl, rfl, rfl, rfl, rfl, ?_⟩
  · simp [joinRoom, addPlayer, hany]
  · simp [newPlayer, List.isEmpty_iff]

/-- Witness for C10: joining the two-player lobby appends a fresh non-host
player. -/
theorem claim_C10_witness :
    joinRoom (some roomLobby2) "p9" "s9" =
      (true, some { roomLobby2 with players :=
        roomLobby2.players ++ [newPlayer "p9" "s9" roomLobby2.players.isEmpty] }) ∧
    (newPlayer "p9" "s9" roomLobby2.players.isEmpty).name = "" ∧
    (newPlayer "p9" "s9" roomLobby2.players.isEmpty).isReady = false ∧
    (newPlayer "p9" "s9" roomLobby2.players.isEmpty).score = 0 ∧
    (newPlayer "p9" "s9" roomLobby2.players.isEmpty).currentHeight = none ∧
    (newPlayer "p9" "s9" roomLobby2.players.isEmpty).isConnected = true ∧
    ((newPlayer "p9" "s9" roomLobby2.players.isEmpty).isHost = true ↔
      roomLobby2.players = []) :=
  claim_C10 roomLobby2 "p9" "s9" (by decide)

/-- C3 (failing input): the gateway performs no capacity check.  On a room
whose roster already holds `maxPlayersPerRoom` (= 10) players, an 11th join
request is accepted — the handler replies `room-joined` and the roster grows
to 11 — where the claim (and `game.config.ts`, which defines
`maxPlayersPerRoom` that no code ever reads) expects a capacity error and an
unchanged roster. -/
theorem claim_C3_bug :
    roomFull.players.length = maxPlayersPerRoom ∧
    (handleJoinRoom (some roomFull) "p10" "s10").2 =
      JoinReply.roomJoined "FULL01" "p10" ∧
    ((handleJoinRoom (some roomFull) "p10" "s10").1.map
      (fun r => r.players.length)) = some (maxPlayersPerRoom + 1) := by
  decide

/-- Membership in the consent set after an add. -/
theorem mem_insertConsent (a b : String) (l : List String) :
    a ∈ insertConsent b l ↔ a ∈ l ∨ a = b := by
  unfold insertConsent
  split
  · rename_i hc
    constructor
    · exact fun h => Or.inl h
    · rintro (h | rfl)
      · exact h
      · simpa using hc
  · simp

/-- C1 (counterexample): in a finished single-player room the `player-ready`
handler — which has no phase guard, and every player still carries
`isReady = true` from the finished game — restarts the game and moves the
phase from `game-over` to `selection`.  So an inbound action other than a
restart consent does change the phase of a game-over room. -/
theorem claim_C1_cex :
    roomGameOver1.state = RoomState.gameOver ∧
    (handlePlayerReady roomGameOver1 "p1").1.state = RoomState.selection ∧
    (handlePlayerReady roomGameOver1 "p1").2 = ReadyOutcome.started := by
  decide

/-- C1 (amended): for every room in phase game-over, a restart consent is
recorded and the phase stays game-over until every connected player has
consented, at which point it becomes waiting-ready; guess submissions, name
changes and disconnects never change the phase of a game-over room, but a
`player-ready` from a named player either leaves the phase game-over or — when
every connected player is marked ready — starts a new game, moving the phase
to `selection`. -/
theorem claim_C1_amended (room : Room) (playerId : String)
    (h : room.state = RoomState.gameOver) :
    (checkAllRestartConsents { room with
        restartConsents := insertConsent playerId room.restartConsents } = false →
      (handleRestartConsent room playerId).state = RoomState.gameOver ∧
      playerId ∈ (handleRestartConsent room playerId).restartConsents) ∧
    (checkAllRestartConsents { room with
        restartConsents := insertConsent playerId room.restartConsents } = true →
      (handleRestartConsent room playerId).state = RoomState.waitingReady) ∧
    (∀ height, (handleSelectHeight room playerId height).1 = room) ∧
    (∀ name, (setPlayerName room playerId name).state = RoomState.gameOver) ∧
    (∀ room2, handleDisconnect room playerId = some room2 →
      room2.state = RoomState.gameOver) ∧
    ((handlePlayerReady room playerId).1.state = RoomState.gameOver ∨
      ((handlePlayerReady room playerId).1.state = RoomState.selection ∧
        (handlePlayerReady room playerId).2 = ReadyOutcome.started)) := by
  refine ⟨?_, ?_, ?_, ?_, ?_, ?_⟩
  · intro hck
    unfold handleRestartConsent
    rw [if_pos h, if_neg (by simp [hck])]
    refine ⟨h, ?_⟩
    rw [mem_insertConsent]
    exact Or.inr rfl
  · intro hck
    unfold handleRestartConsent
    rw [if_pos h, if_pos hck]
    rfl
  · intro height
    unfold handleSelectHeight
    rw [if_neg (by rw [h]; exact fun hx => by cases hx)]
  · intro name
    unfold setPlayerName
    split
    · exact h
    · split
      · exact h
      · exact h
  · intro room2 hstep
    unfold handleDisconnect at hstep
    split at hstep
    · cases hstep
      exact h
    · rw [if_neg (by rw [h]; rintro (hx | hx) <;> cases hx)] at hstep
      dsimp only at hstep
      split at hstep
      · cases hstep
      · cases hstep
        exact h
  · unfold handlePlayerReady
    split
    · exact Or.inl h
    · split
      · exact Or.inl h
      · dsimp only
        simp only [h]
        split
        · rename_i hbad
          cases hbad
        · split
          · exact Or.inr ⟨rfl, rfl⟩
          · exact Or.inl rfl

/-- Witness for C1 (amended) on the finished two-player room. -/
theorem claim_C1_amended_witness :
    (checkAllRestartConsents { roomGameOver2 with
        restartConsents := insertConsent "p1" roomGameOver2.restartConsents } = false →
      (handleRestartConsent roomGameOver2 "p1").state = RoomState.gameOver ∧
      "p1" ∈ (handleRestartConsent roomGameOver2 "p1").restartConsents) ∧
    (checkAllRestartConsents { roomGameOver2 with
        restartConsents := insertConsent "p1" roomGameOver2.restartConsents } = true →
      (handleRestartConsent roomGameOver2 "p1").state = RoomState.waitingReady) ∧
    (∀ height, (handleSelectHeight roomGameOver2 "p1" height).1 = roomGameOver2) ∧
    (∀ name, (setPlayerName roomGameOver2 "p1" name).state = RoomState.gameOver) ∧
    (∀ room2, handleDisconnect roomGameOver2 "p1" = some room2 →
      room2.state = RoomState.gameOver) ∧
    ((handlePlayerReady roomGameOver2 "p1").1.state = RoomState.gameOver ∨
      ((handlePlayerReady roomGameOver2 "p1").1.state = RoomState.selection ∧
        (handlePlayerReady roomGameOver2 "p1").2 = ReadyOutcome.started)) :=
  claim_C1_amended roomGameOver2 "p1" (by decide)

/-- C5: in a game-over room holding two distinct connected players where the
second has not consented, a consent from the first leaves the phase
game-over; and whenever a consent completes the connected-player consensus,
the room returns to waiting-ready with every player's score reset to 0,
guesses and readiness cleared, round counter 0, no target, and an empty
consent set. -/
theorem claim_C5 (room : Room) (p q : Player)
    (hstate : room.state = RoomState.gameOver)
    (hp : p ∈ room.players) (hq : q ∈ room.players)
    (hne : q.id ≠ p.id) (hqc : q.isConnected = true)
    (hqn : q.id ∉ room.restartConsents) :
    (handleRestartConsent room p.id).state = RoomState.gameOver ∧
    (∀ playerId,
      checkAllRestartConsents { room with
        restartConsents := insertConsent playerId room.restartConsents } = true →
      ((handleRestartConsent room playerId).state = RoomState.waitingReady ∧
       (∀ pl ∈ (handleRestartConsent room playerId).players,
          pl.score = 0 ∧ pl.currentHeight = none ∧ pl.isReady = false) ∧
       (handleRestartConsent room playerId).currentRound = 0 ∧
       (handleRestartConsent room playerId).currentWallHole = none ∧
       (handleRestartConsent room playerId).restartConsents = [])) := by
  constructor
  · have hck : checkAllRestartConsents { room with
        restartConsents := insertConsent p.id room.restartConsents } = false := by
      unfold checkAllRestartConsents
      simp only [Bool.and_eq_false_iff, List.all_eq_false]
      right
      refine ⟨q, hq, ?_⟩
      have hnm : q.id ∉ insertConsent p.id room.restartConsents := by
        rw [mem_insertConsent]
        rintro (hx | hx)
        · exact hqn hx
        · exact hne hx
      simp [hqc, hnm]
    unfold handleRestartConsent
    rw [if_pos hstate, if_neg (by simp [hck])]
    exact hstate
  · intro playerId hck
    unfold handleRestartConsent
    rw [if_pos hstate, if_pos hck]
    unfold restartGame
    refine ⟨rfl, ?_, rfl, rfl, rfl⟩
    intro pl hpl
    simp only [List.mem_map] at hpl
    obtain ⟨x, _, rfl⟩ := hpl
    exact ⟨rfl, rfl, rfl⟩

/-- Witness for C5 on the finished two-player room. -/
theorem claim_C5_witness :
    (handleRestartConsent roomGameOver2 playerAna.id).state = RoomState.gameOver ∧
    (∀ playerId,
      checkAllRestartConsents { roomGameOver2 with
        restartConsents := insertConsent playerId roomGameOver2.restartConsents } = true →
      ((handleRestartConsent roomGameOver2 playerId).state = RoomState.waitingReady ∧
       (∀ pl ∈ (handleRestartConsent roomGameOver2 playerId).players,
          pl.score = 0 ∧ pl.currentHeight = none ∧ pl.isReady = false) ∧
       (handleRestartConsent roomGameOver2 playerId).currentRound = 0 ∧
       (handleRestartConsent roomGameOver2 playerId).currentWallHole = none ∧
       (handleRestartConsent roomGameOver2 playerId).restartConsents = [])) :=
  claim_C5 roomGameOver2 playerAna playerBo (by decide) (by decide) (by decide)
    (by decide) (by decide) (by decide)

/-! ### Helper lemmas about the final-ranking computation -/

/-- Inserting into the descending sort permutes a cons. -/
theorem insertDesc_perm (s : PlayerScore) (l : List PlayerScore) :
    List.Perm (insertDesc s l) (s :: l) := by
  induction l with
  | nil => exact List.Perm.refl _
  | cons t ts ih =>
    unfold insertDesc
    split
    · exact List.Perm.trans (List.Perm.cons t ih) (List.Perm.swap s t ts)
    · exact List.Perm.refl _

/-- The descending sort is a permutation of its input. -/
theorem sortByScoreDesc_perm (l : List PlayerScore) :
    List.Perm (sortByScoreDesc l) l := by
  induction l with
  | nil => exact List.Perm.refl _
  | cons s ss ih =>
    exact List.Perm.trans (insertDesc_perm s (sortByScoreDesc ss))
      (List.Perm.cons s ih)

/-- Insertion preserves descending sortedness. -/
theorem sorted_insertDesc (s : PlayerScore) (l : List PlayerScore)
    (h : List.Sorted scoreGE l) : List.Sorted scoreGE (insertDesc s l) := by
  induction l with
  | nil => simp [insertDesc, scoreGE]
  | cons t ts ih =>
    rw [List.sorted_cons] at h
    obtain ⟨ht, hts⟩ := h
    unfold insertDesc
    split
    · rename_i hle
      rw [List.sorted_cons]
      constructor
      · intro b hb
        rw [(insertDesc_perm s ts).mem_iff, List.mem_cons] at hb
        rcases hb with rfl | hb
        · exact hle
        · exact ht b hb
      · exact ih hts
    · rename_i hgt
      rw [List.sorted_cons]
      refine ⟨?_, ?_⟩
      · intro b hb
        rw [List.mem_cons] at hb
        rcases hb with rfl | hb
        · exact le_of_not_le hgt
        · exact le_trans (ht b hb) (le_of_not_le hgt)
      · rw [List.sorted_cons]
        exact ⟨ht, hts⟩

/-- The descending sort is sorted. -/
theorem sorted_sortByScoreDesc (l : List PlayerScore) :
    List.Sorted scoreGE (sortByScoreDesc l) := by
  induction l with
  | nil => simp [sortByScoreDesc]
  | cons s ss ih => exact sorted_insertDesc s _ ih

/-- Rank assignment is positional: the `j`-th entry receives rank
`i + j + 1` and the winner flag of its score. -/
theorem assignRanks_getElem (hsc : Int) (l : List PlayerScore) (i j : Nat) :
    (assignRanks hsc i l)[j]? = (l[j]?).map
      (fun s => { s with rank := i + j + 1, isWinner := s.score == hsc }) := by
  induction l generalizing i j with
  | nil => simp [assignRanks]
  | cons s ss ih =>
    cases j with
    | zero => simp [assignRanks]
    | succ j2 =>
      simp only [assignRanks, List.getElem?_cons_succ]
      rw [ih (i + 1) j2]
      simp only [show i + 1 + j2 + 1 = i + (j2 + 1) + 1 from by omega]

/-- Rank assignment keeps the (playerId, score) content pointwise. -/
theorem assignRanks_map_idScore (hsc : Int) (i : Nat) (l : List PlayerScore) :
    (assignRanks hsc i l).map (fun s => (s.playerId, s.score)) =
      l.map (fun s => (s.playerId, s.score)) := by
  induction l generalizing i with
  | nil => rfl
  | cons s ss ih => simp [assignRanks, ih]

/-- Every entry after rank assignment carries the winner flag computed from
its own score, and descends from an input entry with the same score and id. -/
theorem mem_assignRanks (hsc : Int) (i : Nat) (l : List PlayerScore)
    (b : PlayerScore) (hb : b ∈ assignRanks hsc i l) :
    b.isWinner = (b.score == hsc) ∧
      ∃ a ∈ l, b.score = a.score ∧ b.playerId = a.playerId := by
  induction l generalizing i with
  | nil => simp [assignRanks] at hb
  | cons s ss ih =>
    simp only [assignRanks, List.mem_cons] at hb
    rcases hb with rfl | hb
    · exact ⟨rfl, s, List.mem_cons_self _ _, rfl, rfl⟩
    · obtain ⟨hw, a, ha, hsc2, hid⟩ := ih (i + 1) hb
      exact ⟨hw, a, List.mem_cons_of_mem _ ha, hsc2, hid⟩

/-- Every input entry survives rank assignment with its id and score. -/
theorem assignRanks_mem_of_mem (hsc : Int) (i : Nat) (l : List PlayerScore)
    (a : PlayerScore) (ha : a ∈ l) :
    ∃ b ∈ assignRanks hsc i l, b.playerId = a.playerId ∧ b.score = a.score ∧
      b.isWinner = (a.score == hsc) := by
  induction l generalizing i with
  | nil => cases ha
  | cons s ss ih =>
    rcases List.mem_cons.mp ha with rfl | ha2
    · exact ⟨_, List.mem_cons_self _ _, rfl, rfl, rfl⟩
    · obtain ⟨b, hb, h1, h2, h3⟩ := ih (i + 1) ha2
      exact ⟨b, List.mem_cons_of_mem _ hb, h1, h2, h3⟩

/-- Rank assignment preserves descending sortedness. -/
theorem sorted_assignRanks (hsc : Int) (i : Nat) (l : List PlayerScore)
    (h : List.Sorted scoreGE l) : List.Sorted scoreGE (assignRanks hsc i l) := by
  induction l generalizing i with
  | nil => simp [assignRanks]
  | cons s ss ih =>
    rw [List.sorted_cons] at h
    obtain ⟨hs, hss⟩ := h
    unfold assignRanks
    rw [List.sorted_cons]
    constructor
    · intro b hb
      obtain ⟨-, a, ha, hscore, -⟩ := mem_assignRanks hsc (i + 1) ss b hb
      show b.score ≤ s.score
      rw [hscore]
      exact hs a ha
    · exact ih (i + 1) hss

/-- The winner flag marks exactly the entries of maximal score, provided the
reference score is an upper bound attained by some entry. -/
theorem winner_iff_max (hsc : Int) (l : List PlayerScore)
    (hub : ∀ a ∈ l, a.score ≤ hsc) (hex : ∃ a ∈ l, a.score = hsc) :
    ∀ s ∈ assignRanks hsc 0 l,
      (s.isWinner = true ↔ ∀ t ∈ assignRanks hsc 0 l, t.score ≤ s.score) := by
  intro s hs
  obtain ⟨hw, a, ha, hsa, -⟩ := mem_assignRanks hsc 0 l s hs
  constructor
  · intro hwin t ht
    obtain ⟨-, b, hb, hsb, -⟩ := mem_assignRanks hsc 0 l t ht
    rw [hw, beq_iff_eq] at hwin
    rw [hsb, hwin]
    exact hub b hb
  · intro hall
    rw [hw, beq_iff_eq]
    obtain ⟨m, hm, hms⟩ := hex
    obtain ⟨b2, hb2, -, hb2s, -⟩ := assignRanks_mem_of_mem hsc 0 l m hm
    have h1 : s.score ≤ hsc := by
      rw [hsa]
      exact hub a ha
    have h2 : hsc ≤ s.score := by
      rw [← hms, ← hb2s]
      exact hall b2 hb2
    omega

/-- Every roster member appears in the final ranking with its id and score. -/
theorem computeFinalScores_covers (players : List Player) :
    ∀ pl ∈ players, ∃ s ∈ computeFinalScores players,
      s.playerId = pl.id ∧ s.score = pl.score := by
  intro pl hpl
  unfold computeFinalScores
  dsimp only
  have hraw : initialScore pl ∈ players.map initialScore :=
    List.mem_map_of_mem _ hpl
  have hsorted := (sortByScoreDesc_perm _).mem_iff.mpr hraw
  obtain ⟨b, hb, h1, h2, -⟩ := assignRanks_mem_of_mem _ 0 _ _ hsorted
  exact ⟨b, hb, h1, h2⟩

/-- C2 (counterexample): in `roomSelection2` the second player is
disconnected with no selection and score 0; when the selection deadline
elapses (hole drawn at 7, default scoring), the results computation scores
every roster member — the disconnected player's cumulative score moves from
0 to -5 (default guess 5 < hole 7), so it is not unchanged by the round. -/
theorem claim_C2_cex :
    roomSelection2.players.map (fun p => (p.isConnected, p.score)) =
      [(true, 20), (false, 0)] ∧
    (endSelectionPeriod defaultScoring roomSelection2 7).1.players.map
      (fun p => (p.isConnected, p.score)) = [(true, 40), (false, -5)] := by
  decide

/-- C2 (amended): for every player disconnected with no stored guess when the
selection deadline elapses, the default guess is assigned only to connected
players' stored selections (the disconnected player's stays empty), but the
results computation scores every roster member treating a missing guess as
the default height, so the disconnected player's cumulative score changes by
the points of the default guess; the player appears in the round results and
in the final rankings with its resulting score. -/
theorem claim_C2_amended (cfg : ScoringConfig) (room : Room) (hole : Nat)
    (p : Player) (hstate : room.state = RoomState.selection)
    (hp : p ∈ room.players) (hpc : p.isConnected = false)
    (hph : p.currentHeight = none) :
    (∃ p2 ∈ (endSelectionPeriod cfg room hole).1.players,
      p2.id = p.id ∧ p2.currentHeight = none ∧
      p2.score = p.score + calculatePoints cfg defaultHeight hole) ∧
    (∀ q ∈ room.players, q.isConnected = true → q.currentHeight = none →
      ∃ q2 ∈ (endSelectionPeriod cfg room hole).1.players,
        q2.id = q.id ∧ q2.currentHeight = some defaultHeight) ∧
    (∃ r ∈ (endSelectionPeriod cfg room hole).2,
      r.playerId = p.id ∧ r.selectedHeight = defaultHeight ∧
      r.totalScore = p.score + calculatePoints cfg defaultHeight hole) ∧
    (∀ pl ∈ room.players, ∃ s ∈ computeFinalScores room.players,
      s.playerId = pl.id ∧ s.score = pl.score) := by
  have hf1 : (if p.isConnected ∧ p.currentHeight = none then
      { p with currentHeight := some defaultHeight } else p) = p := by
    rw [if_neg]
    rintro ⟨hc, -⟩
    rw [hpc] at hc
    cases hc
  refine ⟨?_, ?_, ?_, computeFinalScores_covers room.players⟩
  · unfold endSelectionPeriod
    rw [if_pos hstate]
    dsimp only [calculateResults]
    refine ⟨(roundResultFor cfg hole p).1, ?_, rfl, hph, ?_⟩
    · rw [List.mem_map]
      refine ⟨p, ?_, rfl⟩
      rw [List.mem_map]
      exact ⟨p, hp, hf1⟩
    · show p.score + calculatePoints cfg (p.currentHeight.getD defaultHeight) hole =
        p.score + calculatePoints cfg defaultHeight hole
      rw [hph]
      rfl
  · intro q hq hqc hqh
    unfold endSelectionPeriod
    rw [if_pos hstate]
    dsimp only [calculateResults]
    refine ⟨(roundResultFor cfg hole
      { q with currentHeight := some defaultHeight }).1, ?_, rfl, rfl⟩
    rw [List.mem_map]
    refine ⟨{ q with currentHeight := some defaultHeight }, ?_, rfl⟩
    rw [List.mem_map]
    refine ⟨q, hq, ?_⟩
    rw [if_pos]
    exact ⟨by rw [hqc], hqh⟩
  · unfold endSelectionPeriod
    rw [if_pos hstate]
    dsimp only [calculateResults]
    refine ⟨(roundResultFor cfg hole p).2, ?_, rfl, ?_, ?_⟩
    · rw [List.mem_map]
      refine ⟨p, ?_, rfl⟩
      rw [List.mem_map]
      exact ⟨p, hp, hf1⟩
    · show p.currentHeight.getD defaultHeight = defaultHeight
      rw [hph]
      rfl
    · show p.score + calculatePoints cfg (p.currentHeight.getD defaultHeight) hole =
        p.score + calculatePoints cfg defaultHeight hole
      rw [hph]
      rfl

/-- Witness for C2 (amended) on `roomSelection2` with hole 7. -/
theorem claim_C2_amended_witness :
    (∃ p2 ∈ (endSelectionPeriod defaultScoring roomSelection2 7).1.players,
      p2.id = { playerBo with isConnected := false }.id ∧ p2.currentHeight = none ∧
      p2.score = { playerBo with isConnected := false }.score +
        calculatePoints defaultScoring defaultHeight 7) ∧
    (∀ q ∈ roomSelection2.players, q.isConnected = true → q.currentHeight = none →
      ∃ q2 ∈ (endSelectionPeriod defaultScoring roomSelection2 7).1.players,
        q2.id = q.id ∧ q2.currentHeight = some defaultHeight) ∧
    (∃ r ∈ (endSelectionPeriod defaultScoring roomSelection2 7).2,
      r.playerId = { playerBo with isConnected := false }.id ∧
      r.selectedHeight = defaultHeight ∧
      r.totalScore = { playerBo with isConnected := false }.score +
        calculatePoints defaultScoring defaultHeight 7) ∧
    (∀ pl ∈ roomSelection2.players, ∃ s ∈ computeFinalScores roomSelection2.players,
      s.playerId = pl.id ∧ s.score = pl.score) :=
  claim_C2_amended defaultScoring roomSelection2 7
    { playerBo with isConnected := false } (by decide) (by decide) (by decide)
    (by decide)

/-- C6: for every non-empty roster the final-scores computation is a
permutation of the roster's (id, score) pairs, sorted descending by score,
assigns rank equal to the 1-based position in that order (so tied scores get
distinct sequential ranks), and sets the winner flag exactly on the entries
of maximal score; a single-player roster yields exactly one entry with
rank 1 and the winner flag set. -/
theorem claim_C6 (players : List Player) (hne : players ≠ []) :
    List.Perm ((computeFinalScores players).map (fun s => (s.playerId, s.score)))
      (players.map (fun p => (p.id, p.score))) ∧
    List.Sorted scoreGE (computeFinalScores players) ∧
    (∀ i s, (computeFinalScores players)[i]? = some s → s.rank = i + 1) ∧
    (∀ s ∈ computeFinalScores players, s.isWinner = true ↔
      ∀ t ∈ computeFinalScores players, t.score ≤ s.score) ∧
    (∀ p : Player, computeFinalScores [p] =
      [{ playerId := p.id, playerName := p.name, score := p.score,
         rank := 1, isWinner := true }]) := by
  refine ⟨?_, ?_, ?_, ?_, ?_⟩
  · unfold computeFinalScores
    dsimp only
    rw [assignRanks_map_idScore]
    have h := (sortByScoreDesc_perm (players.map initialScore)).map
      (fun s => (s.playerId, s.score))
    rw [List.map_map] at h
    exact h
  · unfold computeFinalScores
    dsimp only
    exact sorted_assignRanks _ 0 _ (sorted_sortByScoreDesc _)
  · unfold computeFinalScores
    dsimp only
    intro i s hs
    rw [assignRanks_getElem] at hs
    rcases hx : (sortByScoreDesc (players.map initialScore))[i]? with - | x
    · rw [hx] at hs
      cases hs
    · rw [hx] at hs
      cases hs
      show 0 + i + 1 = i + 1
      omega
  · unfold computeFinalScores
    dsimp only
    cases hs : sortByScoreDesc (players.map initialScore) with
    | nil =>
      exfalso
      have hperm := sortByScoreDesc_perm (players.map initialScore)
      rw [hs] at hperm
      have := List.map_eq_nil_iff.mp hperm.symm.eq_nil
      exact hne this
    | cons hd tl =>
      apply winner_iff_max
      · intro a ha
        rcases List.mem_cons.mp ha with rfl | ha2
        · exact le_refl _
        · have hsorted := sorted_sortByScoreDesc (players.map initialScore)
          rw [hs, List.sorted_cons] at hsorted
          exact hsorted.1 a ha2
      · exact ⟨hd, List.mem_cons_self _ _, rfl⟩
  · intro p
    simp [computeFinalScores, sortByScoreDesc, insertDesc, assignRanks,
      initialScore]

/-- Witness for C6 on a three-player roster with a tie at the top. -/
theorem claim_C6_witness :
    List.Perm ((computeFinalScores roomGameOver2.players).map
        (fun s => (s.playerId, s.score)))
      (roomGameOver2.players.map (fun p => (p.id, p.score))) ∧
    List.Sorted scoreGE (computeFinalScores roomGameOver2.players) ∧
    (∀ i s, (computeFinalScores roomGameOver2.players)[i]? = some s →
      s.rank = i + 1) ∧
    (∀ s ∈ computeFinalScores roomGameOver2.players, s.isWinner = true ↔
      ∀ t ∈ computeFinalScores roomGameOver2.players, t.score ≤ s.score) ∧
    (∀ p : Player, computeFinalScores [p] =
      [{ playerId := p.id, playerName := p.name, score := p.score,
         rank := 1, isWinner := true }]) :=
  claim_C6 roomGameOver2.players (by decide)

/-- C9: on a disconnect of a roster player: in `lobby` or `waiting-ready` the
player is removed from the roster entirely (no entry with its id remains),
the host flag is held by a remaining player whenever the departed player was
host, and the room is deleted exactly when the roster becomes empty; in every
other phase the roster keeps every member, with the departing player marked
`isConnected = false` and the rest untouched, and the room is destroyed
exactly when every roster member is now disconnected. -/
theorem claim_C9 (room : Room) (p : Player) (playerId : String)
    (hfind : room.players.find? (fun q => q.id = playerId) = some p) :
    ((room.state = RoomState.lobby ∨ room.state = RoomState.waitingReady) →
      (handleDisconnect room playerId = none ↔
        room.players.filter (fun q => q.id ≠ playerId) = []) ∧
      (∀ room2, handleDisconnect room playerId = some room2 →
        (∀ q ∈ room2.players, q.id ≠ playerId) ∧
        (p.isHost = true → ∃ q ∈ room2.players, q.isHost = true) ∧
        room2.state = room.state)) ∧
    (¬(room.state = RoomState.lobby ∨ room.state = RoomState.waitingReady) →
      (handleDisconnect room playerId = none ↔
        ∀ q ∈ room.players, q.id = playerId ∨ q.isConnected = false) ∧
      (∀ room2, handleDisconnect room playerId = some room2 →
        room2.players = room.players.map
          (fun q => if q.id = playerId then { q with isConnected := false } else q) ∧
        room2.state = room.state)) := by
  have hfilmem : ∀ q ∈ room.players.filter (fun q => q.id ≠ playerId),
      q.id ≠ playerId := by
    intro q hq
    simpa using (List.mem_filter.mp hq).2
  constructor
  · intro hl
    unfold handleDisconnect
    rw [hfind]
    dsimp only
    rw [if_pos hl]
    by_cases hhost : p.isHost = true ∧
        ¬(room.players.filter (fun q => q.id ≠ playerId)).isEmpty = true
    · rw [if_pos hhost]
      cases hfil : room.players.filter (fun q => q.id ≠ playerId) with
      | nil =>
        exfalso
        rw [hfil] at hhost
        exact hhost.2 rfl
      | cons a t =>
        rw [hfil] at hfilmem
        dsimp only [List.isEmpty]
        rw [if_neg (by exact fun hx => by cases hx)]
        constructor
        · constructor
          · intro hx
            cases hx
          · intro hx
            cases hx
        · intro room2 h2
          cases h2
          refine ⟨?_, ?_, rfl⟩
          · intro q hq
            rcases List.mem_cons.mp hq with rfl | hq2
            · exact hfilmem a (List.mem_cons_self _ _)
            · exact hfilmem q (List.mem_cons_of_mem _ hq2)
          · intro hph
            exact ⟨_, List.mem_cons_self _ _, rfl⟩
    · rw [if_neg hhost]
      split
      · rename_i hemp
        constructor
        · exact iff_of_true rfl (List.isEmpty_iff.mp hemp)
        · intro room2 h2
          cases h2
      · rename_i hemp
        constructor
        · constructor
          · intro hx
            cases hx
          · intro hx
            rw [hx] at hemp
            exact (hemp rfl).elim
        · intro room2 h2
          cases h2
          refine ⟨hfilmem, ?_, rfl⟩
          intro hph
          have hie : (room.players.filter (fun q => q.id ≠ playerId)).isEmpty = true := by
            by_contra hni
            exact hhost ⟨hph, hni⟩
          exact absurd hie hemp
  · intro hnl
    unfold handleDisconnect
    rw [hfind]
    dsimp only
    rw [if_neg hnl]
    split
    · rename_i hall
      rw [List.all_eq_true] at hall
      constructor
      · refine iff_of_true rfl ?_
        intro q hq
        by_cases hid : q.id = playerId
        · exact Or.inl hid
        · right
          have := hall q (by rw [List.mem_map]; exact ⟨q, hq, by rw [if_neg hid]⟩)
          simpa using this
      · intro room2 h2
        cases h2
    · rename_i hall
      constructor
      · refine iff_of_false (by intro hx; cases hx) ?_
        intro hcon
        apply hall
        rw [List.all_eq_true]
        intro x hx
        rw [List.mem_map] at hx
        obtain ⟨q, hq, rfl⟩ := hx
        by_cases hid : q.id = playerId
        · rw [if_pos hid]
          rfl
        · rw [if_neg hid]
          rcases hcon q hq with hx2 | hx2
          · exact absurd hx2 hid
          · simp [hx2]
      · intro room2 h2
        cases h2
        exact ⟨rfl, rfl⟩

/-- Witness for C9: the host disconnecting from the two-player lobby. -/
theorem claim_C9_witness :
    ((roomLobby2.state = RoomState.lobby ∨ roomLobby2.state = RoomState.waitingReady) →
      (handleDisconnect roomLobby2 "p1" = none ↔
        roomLobby2.players.filter (fun q => q.id ≠ "p1") = []) ∧
      (∀ room2, handleDisconnect roomLobby2 "p1" = some room2 →
        (∀ q ∈ room2.players, q.id ≠ "p1") ∧
        ({ playerAna with isReady := false, score := 0 }.isHost = true →
          ∃ q ∈ room2.players, q.isHost = true) ∧
        room2.state = roomLobby2.state)) ∧
    (¬(roomLobby2.state = RoomState.lobby ∨ roomLobby2.state = RoomState.waitingReady) →
      (handleDisconnect roomLobby2 "p1" = none ↔
        ∀ q ∈ roomLobby2.players, q.id = "p1" ∨ q.isConnected = false) ∧
      (∀ room2, handleDisconnect roomLobby2 "p1" = some room2 →
        room2.players = roomLobby2.players.map
          (fun q => if q.id = "p1" then { q with isConnected := false } else q) ∧
        room2.state = roomLobby2.state)) :=
  claim_C9 roomLobby2 { playerAna with isReady := false, score := 0 } "p1"
    (by decide)

/-! ### Helper lemmas for the deadline invariant -/

/-- The invariant only looks at the state and the two timer flags. -/
theorem timerInv_of_fields (room room2 : Room)
    (hst : room2.state = room.state)
    (hsel : room2.selectionTimer = room.selectionTimer)
    (hrev : room2.revealTimer = room.revealTimer)
    (h : timerInv room) : timerInv room2 := by
  unfold timerInv at *
  rw [hst, hsel, hrev]
  exact h

/-- `startRound` arms only the selection deadline, in state `selection`. -/
theorem timerInv_startRound (room : Room) : timerInv (startRound room) := by
  unfold timerInv startRound
  simp

/-- `startGame` establishes the invariant outright. -/
theorem timerInv_startGame (room : Room) : timerInv (startGame room) :=
  timerInv_startRound _

/-- The ready handler preserves the deadline invariant. -/
theorem timerInv_handlePlayerReady (room : Room) (playerId : String)
    (h : timerInv room) : timerInv (handlePlayerReady room playerId).1 := by
  unfold handlePlayerReady
  split
  · exact h
  · split
    · exact h
    · dsimp only
      split
      · rename_i hlob
        have hsel : room.selectionTimer = false := by
          cases hb : room.selectionTimer with
          | false => rfl
          | true =>
            have := h.1 hb
            rw [hlob] at this
            cases this
        have hrev : room.revealTimer = false := by
          cases hb : room.revealTimer with
          | false => rfl
          | true =>
            have := h.2.1 hb
            rw [hlob] at this
            cases this
        split
        · exact timerInv_startGame _
        · exact ⟨fun hx => Bool.noConfusion (hsel.symm.trans hx),
            fun hx => Bool.noConfusion (hrev.symm.trans hx),
            fun hx => Bool.noConfusion (hsel.symm.trans hx.1)⟩
      · split
        · exact timerInv_startGame _
        · exact h

/-- The selection-deadline transition preserves the deadline invariant. -/
theorem timerInv_endSelectionPeriod (cfg : ScoringConfig) (room : Room)
    (hole : Nat) (h : timerInv room) :
    timerInv (endSelectionPeriod cfg room hole).1 := by
  unfold endSelectionPeriod
  split
  · dsimp only
    exact ⟨fun hx => Bool.noConfusion hx, fun _ => rfl,
      fun hx => Bool.noConfusion hx.1⟩
  · exact h

/-- The reveal-deadline transition preserves the deadline invariant. -/
theorem timerInv_endRound (room : Room) (h : timerInv room) :
    timerInv (endRound room) := by
  unfold endRound
  split
  · dsimp only
    split
    · exact ⟨fun hx => Bool.noConfusion hx, fun hx => Bool.noConfusion hx,
        fun hx => Bool.noConfusion hx.1⟩
    · exact timerInv_startRound _
  · exact h

/-- The restart-consent path preserves the deadline invariant. -/
theorem timerInv_restartConsent (room : Room) (playerId : String)
    (h : timerInv room) : timerInv (gatewayRestartConsent room playerId) := by
  unfold gatewayRestartConsent
  split
  · rename_i hgo
    have hsel : room.selectionTimer = false := by
      cases hb : room.selectionTimer with
      | false => rfl
      | true =>
        have := h.1 hb
        rw [hgo] at this
        cases this
    have hrev : room.revealTimer = false := by
      cases hb : room.revealTimer with
      | false => rfl
      | true =>
        have := h.2.1 hb
        rw [hgo] at this
        cases this
    unfold handleRestartConsent
    rw [if_pos hgo]
    dsimp only
    split
    · unfold restartGame
      exact ⟨fun hx => Bool.noConfusion (hsel.symm.trans hx),
        fun hx => Bool.noConfusion (hrev.symm.trans hx),
        fun hx => Bool.noConfusion (hsel.symm.trans hx.1)⟩
    · exact h
  · exact h

/-- Disconnects preserve the deadline invariant on a surviving room. -/
theorem timerInv_handleDisconnect (room : Room) (playerId : String)
    (room2 : Room) (h : timerInv room)
    (hstep : handleDisconnect room playerId = some room2) : timerInv room2 := by
  unfold handleDisconnect at hstep
  split at hstep
  · cases hstep
    exact h
  · split at hstep
    · dsimp only at hstep
      split at hstep
      · split at hstep
        · cases hstep
        · cases hstep
          exact h
      · split at hstep
        · cases hstep
        · cases hstep
          exact h
    · dsimp only at hstep
      split at hstep
      · cases hstep
      · cases hstep
        exact h

/-- Every event of the per-room semantics preserves the deadline invariant. -/
theorem step_timerInv (cfg : ScoringConfig) (room : Room) (e : GEvent)
    (room2 : Room) (h : timerInv room) (hstep : step cfg room e = some room2) :
    timerInv room2 := by
  cases e with
  | join playerId socketId =>
    cases hstep
    exact h
  | setName playerId name =>
    cases hstep
    unfold setPlayerName
    split
    · exact h
    · split
      · exact h
      · exact h
  | ready playerId =>
    cases hstep
    exact timerInv_handlePlayerReady room playerId h
  | selectHeight playerId height =>
    cases hstep
    unfold handleSelectHeight
    split
    · unfold submitHeight
      split
      · exact h
      · exact h
    · exact h
  | selectionDeadline hole =>
    cases hstep
    exact timerInv_endSelectionPeriod cfg room hole h
  | revealDeadline =>
    cases hstep
    exact timerInv_endRound room h
  | consent playerId =>
    cases hstep
    exact timerInv_restartConsent room playerId h
  | disconnect playerId =>
    exact timerInv_handleDisconnect room playerId room2 h hstep

/-- A transition that leaves both timer flags untouched disarms nothing. -/
theorem no_disarm_of_same (room room2 : Room)
    (hsel : room2.selectionTimer = room.selectionTimer)
    (hrev : room2.revealTimer = room.revealTimer) :
    ¬ disarms room room2 := by
  rintro (⟨h1, h2⟩ | ⟨h1, h2⟩)
  · rw [hsel, h1] at h2
    cases h2
  · rw [hrev, h1] at h2
    cases h2

/-- Every event that disarms a deadline leaves exactly one deadline armed,
except the transition into the terminal `game-over` phase, which leaves
none. -/
theorem step_disarm (cfg : ScoringConfig) (room : Room) (e : GEvent)
    (room2 : Room) (hstep : step cfg room e = some room2) :
    disarms room room2 →
      armedCount room2 = 1 ∨
        (room2.state = RoomState.gameOver ∧ armedCount room2 = 0) := by
  cases e with
  | join playerId socketId =>
    cases hstep
    exact fun hd => absurd hd (no_disarm_of_same _ _ rfl rfl)
  | setName playerId name =>
    cases hstep
    unfold setPlayerName
    split
    · exact fun hd => absurd hd (no_disarm_of_same _ _ rfl rfl)
    · split
      · exact fun hd => absurd hd (no_disarm_of_same _ _ rfl rfl)
      · exact fun hd => absurd hd (no_disarm_of_same _ _ rfl rfl)
  | ready playerId =>
    cases hstep
    unfold handlePlayerReady
    split
    · exact fun hd => absurd hd (no_disarm_of_same _ _ rfl rfl)
    · split
      · exact fun hd => absurd hd (no_disarm_of_same _ _ rfl rfl)
      · dsimp only
        split
        · split
          · exact fun _ => Or.inl rfl
          · exact fun hd => absurd hd (no_disarm_of_same _ _ rfl rfl)
        · split
          · exact fun _ => Or.inl rfl
          · exact fun hd => absurd hd (no_disarm_of_same _ _ rfl rfl)
  | selectHeight playerId height =>
    cases hstep
    unfold handleSelectHeight
    split
    · unfold submitHeight
      split
      · exact fun hd => absurd hd (no_disarm_of_same _ _ rfl rfl)
      · exact fun hd => absurd hd (no_disarm_of_same _ _ rfl rfl)
    · exact fun hd => absurd hd (no_disarm_of_same _ _ rfl rfl)
  | selectionDeadline hole =>
    cases hstep
    unfold endSelectionPeriod
    split
    · dsimp only
      exact fun _ => Or.inl rfl
    · exact fun hd => absurd hd (no_disarm_of_same _ _ rfl rfl)
  | revealDeadline =>
    cases hstep
    unfold endRound
    split
    · dsimp only
      split
      · exact fun _ => Or.inr ⟨rfl, rfl⟩
      · exact fun _ => Or.inl rfl
    · exact fun hd => absurd hd (no_disarm_of_same _ _ rfl rfl)
  | consent playerId =>
    cases hstep
    unfold gatewayRestartConsent
    split
    · rename_i hgo
      unfold handleRestartConsent
      rw [if_pos hgo]
      dsimp only
      split
      · exact fun hd => absurd hd (no_disarm_of_same _ _ rfl rfl)
      · exact fun hd => absurd hd (no_disarm_of_same _ _ rfl rfl)
    · exact fun hd => absurd hd (no_disarm_of_same _ _ rfl rfl)
  | disconnect playerId =>
    replace hstep : handleDisconnect room playerId = some room2 := hstep
    unfold handleDisconnect at hstep
    split at hstep
    · cases hstep
      exact fun hd => absurd hd (no_disarm_of_same _ _ rfl rfl)
    · split at hstep
      · dsimp only at hstep
        split at hstep
        · split at hstep
          · cases hstep
          · cases hstep
            exact fun hd => absurd hd (no_disarm_of_same _ _ rfl rfl)
        · split at hstep
          · cases hstep
          · cases hstep
            exact fun hd => absurd hd (no_disarm_of_same _ _ rfl rfl)
      · dsimp only at hstep
        split at hstep
        · cases hstep
        · cases hstep
          exact fun hd => absurd hd (no_disarm_of_same _ _ rfl rfl)

/-- C4: in every reachable room state an armed deadline handle matches the
current phase — the selection timer is armed only in `selection` and the
reveal timer only in `revealing` — and the two are never armed together;
every transition from a reachable state preserves this, and every transition
that disarms an armed deadline leaves exactly one deadline armed (the new
one) unless it enters the terminal `game-over` phase, where it leaves none. -/
theorem claim_C4 (cfg : ScoringConfig) (room : Room) (h : Reachable cfg room) :
    timerInv room ∧
      ∀ e room2, step cfg room e = some room2 →
        timerInv room2 ∧
        (disarms room room2 →
          armedCount room2 = 1 ∨
            (room2.state = RoomState.gameOver ∧ armedCount room2 = 0)) := by
  have hinv : timerInv room := by
    induction h with
    | init code maxRounds selectionDuration revealDuration =>
      exact ⟨fun hx => Bool.noConfusion hx, fun hx => Bool.noConfusion hx,
        fun hx => Bool.noConfusion hx.1⟩
    | next e hr hstep ih => exact step_timerInv _ _ e _ ih hstep
  exact ⟨hinv, fun e room2 hstep =>
    ⟨step_timerInv _ _ e _ hinv hstep, step_disarm _ _ e _ hstep⟩⟩

/-- Witness for C4 at a freshly created room. -/
theorem claim_C4_witness :
    timerInv (initialRoom "ABC123" 10 15 5) ∧
      ∀ e room2, step defaultScoring (initialRoom "ABC123" 10 15 5) e = some room2 →
        timerInv room2 ∧
        (disarms (initialRoom "ABC123" 10 15 5) room2 →
          armedCount room2 = 1 ∨
            (room2.state = RoomState.gameOver ∧ armedCount room2 = 0)) :=
  claim_C4 defaultScoring (initialRoom "ABC123" 10 15 5)
    (Reachable.init "ABC123" 10 15 5)

end WallGame
